import Mathlib

/-!
Verification development for the Incap geospatial point-sampling and
indicator-classification engine.

Shallow embedding of the core logic:
* `src/core/analysis.py` — recharge screening classifier (`_classify_recharge`).
* `src/core/raster_ops.py` — nodata masking (`_mask_nodata`), elevation
  sampling (`batch_extract_elevation`), 3×3 Horn slope
  (`batch_slope_percent_3x3`), and the WGS84 reader adapters
  (`open_reader_wgs84`, `sample_raster_at_points`).
* `src/core/clc_vector.py` — vector zone assignment (`assign_clc_code_to_points`).
* `src/core/indicators/esg_risk_scoring.py` — threshold classification
  (`classify_indicator`) and composite aggregation (`aggregate_site_score`).

Python floats are modelled as `FVal` (a rational or NaN); `None` and values
whose `float(...)` conversion raises are modelled by `Option`/`PyVal`
constructors.  Missing results are `Option.none`.
-/

namespace Incap

/-- A Python float value: either finite (modelled as a rational) or NaN. -/
inductive FVal where
  | nan : FVal
  | fin : ℚ → FVal
deriving DecidableEq, Repr

/-- IEEE-style equality test on `FVal`: NaN is equal to nothing, including
itself; finite values compare exactly (the source compares with `==`, not an
epsilon). -/
def feq : FVal → FVal → Bool
  | FVal.fin a, FVal.fin b => a == b
  | _, _ => false

/-- Whether an `FVal` is NaN, as `np.isnan` reports it. -/
def FVal.isNaN : FVal → Bool
  | FVal.nan => true
  | FVal.fin _ => false

/-- A Python value fed to `_classify_recharge`: `None`, a NaN float, a finite
number, or a value whose `float(...)` conversion raises. -/
inductive PyVal where
  | none : PyVal
  | nan : PyVal
  | num : ℚ → PyVal
  | invalid : PyVal
deriving DecidableEq, Repr

/-- The `try: float(x) except: None` conversion used in `_classify_recharge`:
`None` stays `None`, a NaN float stays NaN, a finite number converts exactly,
and a non-convertible value becomes `None` via the `except` branch. -/
def pyToFloat : PyVal → Option FVal
  | PyVal.none => Option.none
  | PyVal.nan => Option.some FVal.nan
  | PyVal.num q => Option.some (FVal.fin q)
  | PyVal.invalid => Option.none

/-- One tier of the recharge threshold table: `{awc_min, slope_max}`. -/
structure TierThr where
  awc_min : ℚ
  slope_max : ℚ
deriving DecidableEq, Repr

/-- The two-tier recharge threshold table `thr["recharge"]`:
`{high: {awc_min, slope_max}, medium: {awc_min, slope_max}}`. -/
structure RechargeThr where
  high : TierThr
  medium : TierThr
deriving DecidableEq, Repr

/-- Embedding of `_classify_recharge` (src/core/analysis.py, lines 20–36):
convert each input with a guarded `float(...)`; if either is `None` or NaN
return `"Low"`; then `"High"` if `a > hi.awc_min and s < hi.slope_max`;
then `"Medium"` if `a >= med.awc_min or s <= med.slope_max`; else `"Low"`. -/
def classify_recharge (awc_mm slope_percent : PyVal) (thr : RechargeThr) : String :=
  match pyToFloat awc_mm, pyToFloat slope_percent with
  | Option.some (FVal.fin a), Option.some (FVal.fin s) =>
      if a > thr.high.awc_min ∧ s < thr.high.slope_max then "High"
      else if a ≥ thr.medium.awc_min ∨ s ≤ thr.medium.slope_max then "Medium"
      else "Low"
  | _, _ => "Low"

/-- The two-threshold reference rule, written from the claim's words: `"High"`
exactly when awc is strictly greater than the high `awc_min` and slope is
strictly less than the high `slope_max`; otherwise `"Medium"` exactly when awc
is at least the medium `awc_min` or slope is at most the medium `slope_max`;
otherwise `"Low"`; and `"Low"` whenever either input is `None`, NaN, or not
convertible to a float. -/
def rechargeRefRule (awc_mm slope_percent : PyVal) (thr : RechargeThr) : String :=
  match awc_mm, slope_percent with
  | PyVal.num a, PyVal.num s =>
      if a > thr.high.awc_min ∧ s < thr.high.slope_max then "High"
      else if a ≥ thr.medium.awc_min ∨ s ≤ thr.medium.slope_max then "Medium"
      else "Low"
  | _, _ => "Low"

/-- The default thresholds used by tools/self_check.py:
high `{awc_min:150, slope_max:5}`, medium `{awc_min:50, slope_max:15}`. -/
def defaultThr : RechargeThr :=
  { high := { awc_min := 150, slope_max := 5 },
    medium := { awc_min := 50, slope_max := 15 } }

/-- Whether a `PyVal` input counts as missing for the recharge classifier:
`None`, NaN, or not convertible to a float. -/
def missingInput (v : PyVal) : Bool :=
  match pyToFloat v with
  | Option.some (FVal.fin _) => false
  | _ => true

/-- Claim C1: the recharge classifier `_classify_recharge(awc, slope, thr)`
equals the two-threshold reference rule for every threshold table and every
pair of inputs, returning `"Low"` whenever either input is `None`, NaN, or not
convertible to a float. -/
theorem classify_recharge_eq_ref_rule (awc_mm slope_percent : PyVal) (thr : RechargeThr) :
    classify_recharge awc_mm slope_percent thr = rechargeRefRule awc_mm slope_percent thr := by
  cases awc_mm <;> cases slope_percent <;> rfl

/-- Counterexample to claim C2: with the default thresholds, the input
`(awc=150, slope=4.9)` does not classify as `"High"` — the high tier requires
`awc` strictly greater than 150, and `150 > 150` fails, so the classifier
falls through to `"Medium"`. -/
theorem recharge_150_49_not_high :
    ¬ classify_recharge (PyVal.num 150) (PyVal.num (49/10)) defaultThr = "High" := by
  decide

/-- Claim C2 (amended): with the default thresholds, `(awc=150, slope=4.9)`
yields `"Medium"` (not `"High"`, because the high tier requires awc strictly
greater than 150); `(awc=150, slope=5.0)` yields something other than
`"High"`; `(awc=50, slope=15)` yields `"Medium"`; `(awc=10, slope=20)` yields
`"Low"`; and any input with awc or slope missing yields `"Low"`. -/
theorem recharge_boundary_table :
    classify_recharge (PyVal.num 150) (PyVal.num (49/10)) defaultThr = "Medium"
    ∧ classify_recharge (PyVal.num 150) (PyVal.num 5) defaultThr ≠ "High"
    ∧ classify_recharge (PyVal.num 50) (PyVal.num 15) defaultThr = "Medium"
    ∧ classify_recharge (PyVal.num 10) (PyVal.num 20) defaultThr = "Low"
    ∧ ∀ v w : PyVal, (missingInput v = true ∨ missingInput w = true) →
        classify_recharge v w defaultThr = "Low" := by
  refine ⟨by decide, by decide, by decide, by decide, ?_⟩
  intro v w h
  rcases h with h | h <;> cases v <;> cases w <;> first | rfl | simp [missingInput, pyToFloat] at h

/-- Witness for the amended claim C2 at concrete inputs, discharging the
missing-input hypothesis at `(NaN, 3)`. -/
theorem recharge_boundary_table_witness :
    missingInput PyVal.nan = true
    ∧ classify_recharge PyVal.nan (PyVal.num 3) defaultThr = "Low" :=
  ⟨by decide, recharge_boundary_table.2.2.2.2 PyVal.nan (PyVal.num 3) (Or.inl (by decide))⟩

/-- Embedding of `_mask_nodata` (src/core/raster_ops.py, lines 26–39): `None`
stays `None`; with no declared nodata the value passes through unchanged; with
a declared nodata, NaN is masked, a value exactly equal to the nodata is
masked, and anything else passes through unchanged.  (The `float(val)`
conversion in the source cannot fail on a sampled float and is the identity
here.) -/
def mask_nodata (val : Option FVal) (nodata : Option FVal) : Option FVal :=
  match val with
  | Option.none => Option.none
  | Option.some v =>
      match nodata with
      | Option.none => Option.some v
      | Option.some nd =>
          if v.isNaN then Option.none
          else if feq v nd then Option.none
          else Option.some v

/-- Embedding of `batch_extract_elevation` (src/core/raster_ops.py, lines
42–47): apply `_mask_nodata` to each value delivered by `reader.sample`, in
order.  The raw samples are the list of per-point single-band cell values
(`None` when the reader yields nothing for a point). -/
def batch_extract_elevation (samples : List (Option FVal)) (src_nodata : Option FVal) :
    List (Option FVal) :=
  samples.map (fun raw => mask_nodata raw src_nodata)

/-- Claim C3: with a declared nodata value, point sampling returns missing
exactly on invalid cells — for every sampled in-bounds cell value `v`,
`batch_extract_elevation` returns the missing marker at that position when `v`
equals the declared nodata exactly or is NaN, and returns the exact stored
value unmodified otherwise. -/
theorem batch_extract_masks_exactly (nd v : FVal) (samples : List (Option FVal)) (i : ℕ)
    (h : samples[i]? = Option.some (Option.some v)) :
    (batch_extract_elevation samples (Option.some nd))[i]? =
      Option.some (if v.isNaN = true ∨ feq v nd = true then Option.none else Option.some v) := by
  simp only [batch_extract_elevation, List.getElem?_map, h, Option.map_some]
  cases v with
  | nan => simp [mask_nodata, FVal.isNaN]
  | fin q =>
      by_cases hq : feq (FVal.fin q) nd = true
      · simp [mask_nodata, FVal.isNaN, hq]
      · simp [mask_nodata, FVal.isNaN, hq]

/-- Witness for claim C3: a three-cell sample list with nodata −32768 masks
the nodata cell and passes the finite value 7 through unchanged. -/
theorem batch_extract_masks_exactly_witness :
    ([Option.some (FVal.fin 7)] : List (Option FVal))[0]? =
        Option.some (Option.some (FVal.fin 7))
    ∧ (batch_extract_elevation [Option.some (FVal.fin 7)]
        (Option.some (FVal.fin (-32768))))[0]? =
      Option.some (if (FVal.fin 7).isNaN = true ∨ feq (FVal.fin 7) (FVal.fin (-32768)) = true
        then Option.none else Option.some (FVal.fin 7)) :=
  ⟨by decide,
   batch_extract_masks_exactly (FVal.fin (-32768)) (FVal.fin 7)
     [Option.some (FVal.fin 7)] 0 (by decide)⟩

/-! ### Resampling views (claim C6)

`open_reader_wgs84` (src/core/raster_ops.py, lines 9–24) wraps a source whose
CRS differs from `EPSG:4326` in a `WarpedVRT` with bilinear resampling;
`sample_raster_at_points` (lines 86–99) builds its own `WarpedVRT` with
nearest resampling.  `run_analysis` (src/core/analysis.py) samples elevation
and the 3×3 slope through `open_reader_wgs84`, and samples both the AWC and
the land-cover rasters through `sample_raster_at_points`. -/

/-- A resampling mode of a reprojecting view. -/
inductive Resampling where
  | bilinear : Resampling
  | nearest : Resampling
deriving DecidableEq, Repr

/-- The sampling view produced for a raster: the source itself, or a
reprojecting `WarpedVRT` with a resampling mode. -/
inductive SamplingView where
  | direct : SamplingView
  | warped : Resampling → SamplingView
deriving DecidableEq, Repr

/-- The view built by `open_reader_wgs84` as a function of the source's CRS
string (`none` models a source with no CRS, which is kept as-is). -/
def open_reader_wgs84_view (crs : Option String) : SamplingView :=
  match crs with
  | Option.some c =>
      if c ≠ "EPSG:4326" then SamplingView.warped Resampling.bilinear
      else SamplingView.direct
  | Option.none => SamplingView.direct

/-- The view built inside `sample_raster_at_points` as a function of the
source's CRS string. -/
def sample_raster_view (crs : Option String) : SamplingView :=
  match crs with
  | Option.some c =>
      if c ≠ "EPSG:4326" then SamplingView.warped Resampling.nearest
      else SamplingView.direct
  | Option.none => SamplingView.direct

/-- The three sampled fields of `run_analysis`. -/
inductive FieldKind where
  | elevation : FieldKind
  | awc : FieldKind
  | landcover : FieldKind
deriving DecidableEq, Repr

/-- Which sampling view `run_analysis` uses for each field
(src/core/analysis.py, lines 104–122): elevation (and the derived slope) go
through `open_reader_wgs84`; the AWC raster and a land-cover raster go through
`sample_raster_at_points`. -/
def run_analysis_view (f : FieldKind) (crs : Option String) : SamplingView :=
  match f with
  | FieldKind.elevation => open_reader_wgs84_view crs
  | FieldKind.awc => sample_raster_view crs
  | FieldKind.landcover => sample_raster_view crs

/-- Counterexample to claim C6: for a source CRS differing from WGS84, the
view used for the water-capacity field — a continuous field — is the
nearest-neighbor warped view, not the bilinear one the claim requires. -/
theorem awc_view_not_bilinear :
    ¬ run_analysis_view FieldKind.awc (Option.some "EPSG:3035") =
        SamplingView.warped Resampling.bilinear := by
  decide

/-- Claim C6 (amended): for every raster whose declared CRS differs from
WGS84, the reprojecting view used for elevation uses bilinear resampling,
while the views used for water capacity and for land cover both use
nearest-neighbor resampling. -/
theorem run_analysis_resampling (c : String) (h : c ≠ "EPSG:4326") :
    run_analysis_view FieldKind.elevation (Option.some c) =
        SamplingView.warped Resampling.bilinear
    ∧ run_analysis_view FieldKind.awc (Option.some c) =
        SamplingView.warped Resampling.nearest
    ∧ run_analysis_view FieldKind.landcover (Option.some c) =
        SamplingView.warped Resampling.nearest := by
  refine ⟨?_, ?_, ?_⟩ <;>
    simp [run_analysis_view, open_reader_wgs84_view, sample_raster_view, h]

/-- Witness for the amended claim C6 at the concrete CRS `EPSG:3035`. -/
theorem run_analysis_resampling_witness :
    "EPSG:3035" ≠ "EPSG:4326"
    ∧ run_analysis_view FieldKind.elevation (Option.some "EPSG:3035") =
        SamplingView.warped Resampling.bilinear :=
  ⟨by decide, (run_analysis_resampling "EPSG:3035" (by decide)).1⟩

/-! ### Threshold classification (claims C8 and C10)

`classify_indicator` (src/core/indicators/esg_risk_scoring.py, lines 38–51)
zero-fills an output array, masks the cells equal to the nodata sentinel, and
writes `np.digitize(vals, thr.bins, right=False) + 1` at every other cell. -/

/-- A threshold definition: ordered bin edges plus class labels. -/
structure ThresholdDef where
  bins : List ℚ
  labels : List String
deriving DecidableEq, Repr

/-- `np.digitize(x, bins, right=False)` on monotonically increasing `bins`:
the number of edges less than or equal to `x` (right-open interval membership:
a value equal to an edge falls in the upper bin). -/
def digitizeRight (x : ℚ) (bins : List ℚ) : ℕ :=
  (bins.filter (fun b => b ≤ x)).length

/-- Embedding of `classify_indicator`: elementwise, a cell equal to the nodata
sentinel becomes class 0, every other cell becomes `digitize(...) + 1`. -/
def classify_indicator (arr : List ℚ) (thr : ThresholdDef) (nodata : ℚ) : List ℕ :=
  arr.map (fun v => if v = nodata then 0 else digitizeRight v thr.bins + 1)

/-- Claim C8: with bin edges `[10, 20, 30]` and four labels, the values
`5, 10, 25, 35` classify to `1, 2, 3, 4` (a value equal to an edge falls in
the upper class), and every cell equal to the nodata sentinel classifies
to `0`. -/
theorem classify_round_trip (nodata : ℚ) (labels : List String)
    (h : nodata ∉ ([5, 10, 25, 35] : List ℚ)) :
    classify_indicator [5, 10, 25, 35] ⟨[10, 20, 30], labels⟩ nodata = [1, 2, 3, 4]
    ∧ ∀ (arr : List ℚ) (i : ℕ), arr[i]? = Option.some nodata →
        (classify_indicator arr ⟨[10, 20, 30], labels⟩ nodata)[i]? = Option.some 0 := by
  constructor
  · simp only [List.mem_cons, not_or] at h
    obtain ⟨h5, h10, h25, h35, -⟩ := h
    simp [classify_indicator, digitizeRight, List.filter,
      Ne.symm h5, Ne.symm h10, Ne.symm h25, Ne.symm h35]
    norm_num
  · intro arr i hi
    simp [classify_indicator, List.getElem?_map, hi]

/-- Witness for claim C8 with the concrete nodata sentinel −9999. -/
theorem classify_round_trip_witness :
    ((-9999 : ℚ) ∉ ([5, 10, 25, 35] : List ℚ))
    ∧ classify_indicator [5, 10, 25, 35] ⟨[10, 20, 30], ["L", "M", "H", "VH"]⟩ (-9999) =
        [1, 2, 3, 4] :=
  ⟨by decide, (classify_round_trip (-9999) ["L", "M", "H", "VH"] (by decide)).1⟩

/-- Claim C10: `classify_indicator` is total and length-preserving, its output
values lie in `{0, …, k+1}` for `k` bin edges, a cell classifies to 0 exactly
when the input cell equals the nodata sentinel, and the labels list is never
consulted (classification is identical under any labels list). -/
theorem classify_indicator_range (arr : List ℚ) (thr : ThresholdDef) (nodata : ℚ) :
    (classify_indicator arr thr nodata).length = arr.length
    ∧ (∀ i : ℕ, ∀ c : ℕ, (classify_indicator arr thr nodata)[i]? = Option.some c →
        c ≤ thr.bins.length + 1
        ∧ (c = 0 ↔ arr[i]? = Option.some nodata))
    ∧ ∀ labels2 : List String,
        classify_indicator arr { bins := thr.bins, labels := labels2 } nodata =
          classify_indicator arr thr nodata := by
  refine ⟨List.length_map _ _, ?_, fun _ => rfl⟩
  intro i c hc
  rw [classify_indicator, List.getElem?_map] at hc
  cases harr : arr[i]? with
  | none => rw [harr] at hc; exact absurd hc (by simp)
  | some v =>
      rw [harr, Option.map_some'] at hc
      replace hc : (if v = nodata then 0 else digitizeRight v thr.bins + 1) = c :=
        Option.some.inj hc
      by_cases hv : v = nodata
      · subst hc
        simp only [hv, if_pos rfl]
        exact ⟨Nat.zero_le _, by simp [harr, hv]⟩
      · subst hc
        rw [if_neg hv]
        constructor
        · have : digitizeRight v thr.bins ≤ thr.bins.length :=
            List.length_filter_le _ _
          omega
        · constructor
          · intro h0; omega
          · intro h0
            exact absurd (Option.some.inj h0) hv

/-- Witness for claim C10 at a concrete array, threshold table and sentinel. -/
theorem classify_indicator_range_witness :
    (classify_indicator [3, -1, 25] ⟨[10, 20], ["a"]⟩ (-1)).length =
      ([3, -1, 25] : List ℚ).length
    ∧ classify_indicator [3, -1, 25] ⟨[10, 20], []⟩ (-1) =
        classify_indicator [3, -1, 25] ⟨[10, 20], ["a"]⟩ (-1) :=
  ⟨(classify_indicator_range [3, -1, 25] ⟨[10, 20], ["a"]⟩ (-1)).1,
   (classify_indicator_range [3, -1, 25] ⟨[10, 20], ["a"]⟩ (-1)).2.2 []⟩

/-! ### Vector zone assignment (claim C7)

`assign_clc_code_to_points` (src/core/clc_vector.py, lines 90–102) loads the
zone polygons, returns `[nan] * len(points)` when none load, and otherwise
returns `gpd.sjoin(points, clc, how="left", predicate="intersects")`'s
`CLC_CODE` column as a list.  A left spatial join keeps the points in input
order but emits one row per (point, intersecting polygon) pair — a point that
intersects several polygons contributes several rows, and a point that
intersects none contributes a single row with a missing code. -/

/-- The rows of `sjoin(points, zones, how="left", predicate="intersects")`
projected to the zone code: for each point in order, one entry per
intersecting zone (in zone order), or a single missing entry when the point
intersects no zone.  `intersects` abstracts the geometric predicate. -/
def sjoin_left_codes {P Z C : Type} (intersects : P → Z → Bool)
    (pts : List P) (zones : List (C × Z)) : List (Option C) :=
  (pts.map (fun p =>
    match (zones.filter (fun z => intersects p z.2)).map
        (fun z => Option.some z.1) with
    | [] => [Option.none]
    | hits => hits)).flatten

/-- Embedding of `assign_clc_code_to_points`: with an empty zone layer, one
missing value per point; otherwise the left spatial join's code column. -/
def assign_clc_code_to_points {P Z C : Type} (intersects : P → Z → Bool)
    (pts : List P) (clc : List (C × Z)) : List (Option C) :=
  if clc.isEmpty then pts.map (fun _ => Option.none)
  else sjoin_left_codes intersects pts clc

/-- Claim C7 fails on the code: a single point that intersects two zone
polygons yields two output values — the left spatial join duplicates the
point's row instead of resolving to one value per point, so `run_analysis`'s
column assembly (one value per input row) would fail on this input. -/
theorem assign_clc_duplicates_on_multi_hit :
    assign_clc_code_to_points (fun (_ : Unit) (_ : Unit) => true)
        [()] [((11 : ℕ), ()), ((12 : ℕ), ())] =
      [Option.some 11, Option.some 12]
    ∧ (assign_clc_code_to_points (fun (_ : Unit) (_ : Unit) => true)
        [()] [((11 : ℕ), ()), ((12 : ℕ), ())]).length ≠ 1 := by
  constructor
  · rfl
  · decide

/-! ### Composite aggregation (claim C9)

`aggregate_site_score` (src/core/indicators/esg_risk_scoring.py, lines 54–75)
iterates the classified layers in order; a layer with no cell of class `> 0`
is skipped entirely, otherwise its mean class over the `> 0` cells is recorded
as `"<name>_mean_class"` and added to the weighted composite with weight
`weights[name]` (default 1.0).  The composite is `composite / total_weight`
when `total_weight > 0` and NaN otherwise (NaN is modelled as `none`). -/

/-- Whether a classified layer has any cell with class `> 0` (`np.any(arr > 0)`). -/
def hasPositive (arr : List ℤ) : Bool :=
  arr.any (fun v => decide (0 < v))

/-- The cells of a classified layer with class `> 0` (`arr[arr > 0]`). -/
def posCells (arr : List ℤ) : List ℤ :=
  arr.filter (fun v => decide (0 < v))

/-- The mean class over the `> 0` cells (`arr[mask].mean()`). -/
def meanClass (arr : List ℤ) : ℚ :=
  ((posCells arr).sum : ℚ) / ((posCells arr).length : ℚ)

/-- The weight used for an indicator: `weights[name]` when a weights mapping
is supplied and contains the name, else 1.0. -/
def lookupWeight (weights : Option (List (String × ℚ))) (name : String) : ℚ :=
  match weights with
  | Option.none => 1
  | Option.some ws =>
      match ws.lookup name with
      | Option.some w => w
      | Option.none => 1

/-- The result of `aggregate_site_score`: the per-indicator mean-class entries
(in layer order) and the `composite_score` entry (`none` models NaN). -/
structure AggResult where
  scores : List (String × ℚ)
  composite : Option ℚ
deriving DecidableEq, Repr

/-- One iteration of the `aggregate_site_score` loop over
`(scores, composite, total_weight)`. -/
def aggStep (weights : Option (List (String × ℚ)))
    (acc : List (String × ℚ) × ℚ × ℚ) (l : String × List ℤ) :
    List (String × ℚ) × ℚ × ℚ :=
  if hasPositive l.2 = true then
    (acc.1 ++ [(l.1 ++ "_mean_class", meanClass l.2)],
     acc.2.1 + lookupWeight weights l.1 * meanClass l.2,
     acc.2.2 + lookupWeight weights l.1)
  else acc

/-- Embedding of `aggregate_site_score`: fold the loop over the layers in
order, then divide the weighted sum by the total weight when positive. -/
def aggregate_site_score (layers : List (String × List ℤ))
    (weights : Option (List (String × ℚ))) : AggResult :=
  let t := layers.foldl (aggStep weights) ([], 0, 0)
  ⟨t.1, if t.2.2 > 0 then Option.some (t.2.1 / t.2.2) else Option.none⟩

/-- The layers that contribute to the composite: those with at least one cell
classified as non-missing (class `> 0`). -/
def activeLayers (layers : List (String × List ℤ)) : List (String × List ℤ) :=
  layers.filter (fun l => hasPositive l.2)

/-- The spec's composite: the weight-normalized average of the per-indicator
mean classes over the layers with at least one classified cell. -/
def compositeSpec (layers : List (String × List ℤ))
    (weights : Option (List (String × ℚ))) : Option ℚ :=
  let act := activeLayers layers
  let tw := (act.map (fun l => lookupWeight weights l.1)).sum
  if tw > 0 then
    Option.some (((act.map (fun l => lookupWeight weights l.1 * meanClass l.2)).sum) / tw)
  else Option.none

/-- The `aggregate_site_score` fold, characterised for every accumulator:
the scores collect the active layers' entries in order, and the weighted sum
and weight total accumulate over the active layers. -/
theorem agg_foldl (weights : Option (List (String × ℚ))) (layers : List (String × List ℤ)) :
    ∀ acc : List (String × ℚ) × ℚ × ℚ,
      layers.foldl (aggStep weights) acc =
        (acc.1 ++ (activeLayers layers).map
            (fun l => (l.1 ++ "_mean_class", meanClass l.2)),
         acc.2.1 + ((activeLayers layers).map
            (fun l => lookupWeight weights l.1 * meanClass l.2)).sum,
         acc.2.2 + ((activeLayers layers).map
            (fun l => lookupWeight weights l.1)).sum) := by
  induction layers with
  | nil => intro acc; simp [activeLayers]
  | cons hd tl ih =>
      intro acc
      by_cases h : hasPositive hd.2 = true
      · rw [List.foldl_cons, ih]
        simp only [aggStep, h, if_true, activeLayers, List.filter_cons, List.map_cons,
          List.sum_cons, List.append_assoc, List.singleton_append, Prod.mk.injEq]
        exact ⟨trivial, by ring, by ring⟩
      · rw [List.foldl_cons]
        have hstep : aggStep weights acc hd = acc := by
          simp [aggStep, h]
        rw [hstep, ih]
        simp [activeLayers, List.filter_cons, h]

/-- The whole of `aggregate_site_score`, characterised: scores are the active
layers' mean-class entries in order and the composite is the spec composite. -/
theorem aggregate_site_score_eq_spec (layers : List (String × List ℤ))
    (weights : Option (List (String × ℚ))) :
    aggregate_site_score layers weights =
      ⟨(activeLayers layers).map (fun l => (l.1 ++ "_mean_class", meanClass l.2)),
       compositeSpec layers weights⟩ := by
  unfold aggregate_site_score compositeSpec
  rw [agg_foldl]
  simp

/-- Claim C9: an indicator layer with no cell classified as non-missing
contributes neither to the weighted sum nor to the total weight — removing it
leaves the whole aggregate (composite score and every other indicator's
mean-class entry) unchanged, and the composite equals the weight-normalized
average of the per-indicator mean classes of the remaining layers. -/
theorem aggregate_excludes_all_missing (pre post : List (String × List ℤ))
    (name : String) (arr : List ℤ) (weights : Option (List (String × ℚ)))
    (h : hasPositive arr = false) :
    aggregate_site_score (pre ++ (name, arr) :: post) weights =
        aggregate_site_score (pre ++ post) weights
    ∧ (aggregate_site_score (pre ++ post) weights).composite =
        compositeSpec (pre ++ post) weights := by
  constructor
  · unfold aggregate_site_score
    rw [List.foldl_append, List.foldl_append, List.foldl_cons]
    have hstep : aggStep weights (pre.foldl (aggStep weights) ([], 0, 0)) (name, arr) =
        pre.foldl (aggStep weights) ([], 0, 0) := by
      simp [aggStep, h]
    rw [hstep]
  · rw [aggregate_site_score_eq_spec]

/-- Witness for claim C9: a three-layer instance where the middle layer has no
positively classified cell. -/
theorem aggregate_excludes_all_missing_witness :
    hasPositive [0, -1] = false
    ∧ aggregate_site_score [("a", [1, 2]), ("b", [0, -1]), ("c", [3])] Option.none =
        aggregate_site_score [("a", [1, 2]), ("c", [3])] Option.none :=
  ⟨by decide,
   (aggregate_excludes_all_missing [("a", [1, 2])] [("c", [3])] "b" [0, -1]
      Option.none (by decide)).1⟩

/-! ### 3×3 Horn slope (claims C4 and C5)

`batch_slope_percent_3x3` (src/core/raster_ops.py, lines 50–83) locates each
point's pixel via `reader.index(lon, lat)`, requires the centered 3×3 window
to be fully inside the raster, rejects windows containing a declared nodata
cell, converts the pixel's angular resolution to meters with a local
latitude-dependent scale, rejects degenerate pixel sizes, and otherwise
applies the Horn gradient operator.  `reader.index` is library code; a point
is therefore modelled by its indexed `(row, col)` pair plus its latitude.
`reader.window_transform(win)` preserves the reader transform's `a` and `e`
coefficients (a window offset only translates the transform), so `dx_deg` and
`dy_deg` are `a` and `-e` of the reader's transform. -/

/-- A raster as seen by the slope estimator: pixel grid dimensions, cell
values (as a total function on row/column indices), the declared nodata value,
and the geotransform coefficients `a` (pixel width in degrees) and `e`
(negative pixel height in degrees). -/
structure SlopeRaster where
  height : ℕ
  width : ℕ
  data : ℤ → ℤ → ℝ
  nodata : Option ℝ
  ta : ℝ
  te : ℝ

/-- `dx_m`: the pixel's angular width `transform.a` scaled to meters by
`111320 · cos(lat)` meters per degree of longitude (`np.deg2rad` turns the
latitude in degrees into radians). -/
noncomputable def dxm (r : SlopeRaster) (lat : ℝ) : ℝ :=
  r.ta * (111320 * Real.cos (lat * Real.pi / 180))

/-- `dy_m`: the pixel's angular height `-transform.e` scaled to meters by
`111320` meters per degree of latitude. -/
noncomputable def dym (r : SlopeRaster) : ℝ :=
  -r.te * 111320

/-- The source's edge rejection for a point indexed at `(row, col)`:
`r0 < 0 or c0 < 0 or r0 + 3 > height or c0 + 3 > width` with
`r0 = row - 1`, `c0 = col - 1` — the centered 3×3 window is not fully inside
the raster. -/
def outOfBounds (r : SlopeRaster) (row col : ℤ) : Prop :=
  row - 1 < 0 ∨ col - 1 < 0 ∨ row - 1 + 3 > (r.height : ℤ) ∨ col - 1 + 3 > (r.width : ℤ)

/-- The 3×3 window cell `z[i, j]` read for a point indexed at `(row, col)`:
the raster cell at `(row - 1 + i, col - 1 + j)`. -/
def zWin (r : SlopeRaster) (row col i j : ℤ) : ℝ :=
  r.data (row - 1 + i) (col - 1 + j)

/-- `np.any(z == src_nodata)` with a declared nodata: some cell of the 3×3
window equals the nodata value. -/
def windowHasNodata (r : SlopeRaster) (row col : ℤ) : Prop :=
  ∃ nd, r.nodata = Option.some nd ∧ ∃ i j : Fin 3, zWin r row col (i : ℤ) (j : ℤ) = nd

/-- The Horn x-gradient
`((z02+2·z12+z22)-(z00+2·z10+z20))/(8·dx_m)`. -/
noncomputable def hornDzdx (r : SlopeRaster) (row col : ℤ) (lat : ℝ) : ℝ :=
  ((zWin r row col 0 2 + 2 * zWin r row col 1 2 + zWin r row col 2 2)
    - (zWin r row col 0 0 + 2 * zWin r row col 1 0 + zWin r row col 2 0)) / (8 * dxm r lat)

/-- The Horn y-gradient
`((z20+2·z21+z22)-(z00+2·z01+z02))/(8·dy_m)`. -/
noncomputable def hornDzdy (r : SlopeRaster) (row col : ℤ) : ℝ :=
  ((zWin r row col 2 0 + 2 * zWin r row col 2 1 + zWin r row col 2 2)
    - (zWin r row col 0 0 + 2 * zWin r row col 0 1 + zWin r row col 0 2)) / (8 * dym r)

open Classical in
/-- Per-point body of `batch_slope_percent_3x3`: missing on an incomplete
window, on a window containing a declared nodata cell, or on a degenerate
pixel size; otherwise `(dzdx² + dzdy²)^0.5 · 100`. -/
noncomputable def slopeAtPoint (r : SlopeRaster) (row col : ℤ) (lat : ℝ) : Option ℝ :=
  if outOfBounds r row col then Option.none
  else if windowHasNodata r row col then Option.none
  else if dxm r lat = 0 ∨ dym r = 0 then Option.none
  else Option.some (Real.sqrt (hornDzdx r row col lat ^ 2 + hornDzdy r row col ^ 2) * 100)

/-- Embedding of `batch_slope_percent_3x3`: one result per point, in order;
each point is its indexed `(row, col)` pair plus its latitude. -/
noncomputable def batch_slope_percent_3x3 (r : SlopeRaster) (pts : List (ℤ × ℤ × ℝ)) :
    List (Option ℝ) :=
  pts.map (fun p => slopeAtPoint r p.1 p.2.1 p.2.2)

/-- Claim C4: `batch_slope_percent_3x3` returns the missing marker at every
point whose centered 3×3 window is not fully inside the raster bounds, or
whose window contains a cell equal to the declared nodata value, or whose
metric pixel size `dx_m` or `dy_m` is zero — it never returns an estimate
computed from a partial window. -/
theorem slope_missing_conditions (r : SlopeRaster) (pts : List (ℤ × ℤ × ℝ)) (i : ℕ)
    (row col : ℤ) (lat : ℝ) (hp : pts[i]? = Option.some (row, col, lat))
    (h : outOfBounds r row col ∨ windowHasNodata r row col
        ∨ dxm r lat = 0 ∨ dym r = 0) :
    (batch_slope_percent_3x3 r pts)[i]? = Option.some Option.none := by
  rw [batch_slope_percent_3x3, List.getElem?_map, hp, Option.map_some']
  have hnone : slopeAtPoint r row col lat = Option.none := by
    unfold slopeAtPoint
    rcases h with h1 | h2 | h3
    · rw [if_pos h1]
    · by_cases hb : outOfBounds r row col
      · rw [if_pos hb]
      · rw [if_neg hb, if_pos h2]
    · by_cases hb : outOfBounds r row col
      · rw [if_pos hb]
      · by_cases hn : windowHasNodata r row col
        · rw [if_neg hb, if_pos hn]
        · rw [if_neg hb, if_neg hn, if_pos h3]
  rw [hnone]

/-- A raster two pixels tall: every centered 3×3 window sticks out of it. -/
noncomputable def rEdge : SlopeRaster :=
  { height := 2, width := 5, data := fun _ _ => 0, nodata := Option.none,
    ta := 1, te := -1 }

/-- Witness for claim C4: on a raster only two pixels tall, the point indexed
at row 1 lacks a full 3×3 window and yields missing. -/
theorem slope_missing_conditions_witness :
    outOfBounds rEdge 1 1
    ∧ (batch_slope_percent_3x3 rEdge [(1, 1, 0)])[0]? = Option.some Option.none := by
  have hb : outOfBounds rEdge 1 1 := by
    rw [outOfBounds]
    norm_num [rEdge]
  exact ⟨hb, slope_missing_conditions rEdge [(1, 1, 0)] 0 1 1 0 rfl (Or.inl hb)⟩

/-- Claim C5: at every point with a fully in-bounds window, no window cell
equal to a declared nodata value, and non-degenerate metric pixel sizes,
`batch_slope_percent_3x3` returns exactly
`100 · sqrt(dzdx² + dzdy²)` with the Horn gradients
`dzdx = ((z02+2·z12+z22)−(z00+2·z10+z20))/(8·dx_m)` and
`dzdy = ((z20+2·z21+z22)−(z00+2·z01+z02))/(8·dy_m)`, where `dx_m` and `dy_m`
scale the pixel's angular resolution by `111320·cos(lat)` meters per degree of
longitude and `111320` meters per degree of latitude. -/
theorem slope_horn_formula (r : SlopeRaster) (pts : List (ℤ × ℤ × ℝ)) (i : ℕ)
    (row col : ℤ) (lat : ℝ) (hp : pts[i]? = Option.some (row, col, lat))
    (hb : ¬ outOfBounds r row col) (hn : ¬ windowHasNodata r row col)
    (hdx : dxm r lat ≠ 0) (hdy : dym r ≠ 0) :
    (batch_slope_percent_3x3 r pts)[i]? =
      Option.some (Option.some (100 * Real.sqrt
        ((((zWin r row col 0 2 + 2 * zWin r row col 1 2 + zWin r row col 2 2)
            - (zWin r row col 0 0 + 2 * zWin r row col 1 0 + zWin r row col 2 0))
            / (8 * dxm r lat)) ^ 2
        + (((zWin r row col 2 0 + 2 * zWin r row col 2 1 + zWin r row col 2 2)
            - (zWin r row col 0 0 + 2 * zWin r row col 0 1 + zWin r row col 0 2))
            / (8 * dym r)) ^ 2))) := by
  rw [batch_slope_percent_3x3, List.getElem?_map, hp, Option.map_some']
  have hslope : slopeAtPoint r row col lat = Option.some
      (Real.sqrt (hornDzdx r row col lat ^ 2 + hornDzdy r row col ^ 2) * 100) := by
    unfold slopeAtPoint
    rw [if_neg hb, if_neg hn, if_neg (not_or.mpr ⟨hdx, hdy⟩)]
  rw [hslope, hornDzdx, hornDzdy, mul_comm]

/-- A flat 3×3 raster with unit pixels and no declared nodata. -/
noncomputable def rFlat : SlopeRaster :=
  { height := 3, width := 3, data := fun _ _ => 0, nodata := Option.none,
    ta := 1, te := -1 }

/-- Witness for claim C5: at the center of a flat 3×3 raster on the equator,
every hypothesis holds and the Horn formula is returned. -/
theorem slope_horn_formula_witness :
    ¬ outOfBounds rFlat 1 1
    ∧ dxm rFlat 0 ≠ 0
    ∧ dym rFlat ≠ 0
    ∧ (batch_slope_percent_3x3 rFlat [(1, 1, 0)])[0]? =
      Option.some (Option.some (100 * Real.sqrt
        ((((zWin rFlat 1 1 0 2 + 2 * zWin rFlat 1 1 1 2 + zWin rFlat 1 1 2 2)
            - (zWin rFlat 1 1 0 0 + 2 * zWin rFlat 1 1 1 0 + zWin rFlat 1 1 2 0))
            / (8 * dxm rFlat 0)) ^ 2
        + (((zWin rFlat 1 1 2 0 + 2 * zWin rFlat 1 1 2 1 + zWin rFlat 1 1 2 2)
            - (zWin rFlat 1 1 0 0 + 2 * zWin rFlat 1 1 0 1 + zWin rFlat 1 1 0 2))
            / (8 * dym rFlat)) ^ 2))) := by
  have hb : ¬ outOfBounds rFlat 1 1 := by
    rw [outOfBounds]
    norm_num [rFlat]
  have hn : ¬ windowHasNodata rFlat 1 1 := by
    rintro ⟨nd, hnd, -⟩
    exact Option.noConfusion hnd
  have hdx : dxm rFlat 0 ≠ 0 := by
    rw [dxm]
    norm_num [rFlat, Real.cos_zero]
  have hdy : dym rFlat ≠ 0 := by
    rw [dym]
    norm_num [rFlat]
  exact ⟨hb, hdx, hdy, slope_horn_formula rFlat [(1, 1, 0)] 0 1 1 0 rfl hb hn hdx hdy⟩

end Incap
